import Mathlib

/-!
Verification of `src/openssl/src/rsa_meth.rs` (the `RsaMethod` wrapper over
OpenSSL's `RSA_METHOD` structure).

The embedding models:
* the foreign `RSA_METHOD` structure as a Lean structure (name bytes, flags,
  app_data pointer, twelve callback slots holding function-pointer values);
* the foreign heap as an association list from addresses to structures,
  together with a fresh-address counter and a log of freed addresses;
* the foreign primitives (`RSA_meth_new`, `RSA_meth_dup`, `RSA_meth_free`,
  getters/setters) as state-passing functions;
* the Rust wrapper methods of `RsaMethod`, translated line by line from
  `rsa_meth.rs`, with Rust `Result` and Rust panics made explicit in an
  `Outcome` type.

Pointers are modelled as natural numbers (`0` is the null value used for
`app_data`); allocation success of a foreign call that allocates is an
explicit `Bool` oracle argument.
-/

/-- A NUL-terminated foreign byte string, quotiented by the only distinction
the wrapper ever observes: either the bytes decode as UTF-8 (to a unique Rust
string, by injectivity of the encoding) or they do not. -/
inductive CBytes where
  | utf8 : String → CBytes
  | invalid : CBytes
deriving DecidableEq

/-- The foreign `RSA_METHOD` structure: name, flags, app_data and the twelve
callback slots (function pointers modelled by their address). -/
structure RSA_METHOD where
  name : CBytes
  flags : Int
  app_data : Nat
  pub_enc : Option Nat
  pub_dec : Option Nat
  priv_enc : Option Nat
  priv_dec : Option Nat
  mod_exp : Option Nat
  bn_mod_exp : Option Nat
  init : Option Nat
  finish : Option Nat
  sign : Option Nat
  verify : Option Nat
  keygen : Option Nat
  multi_prime_keygen : Option Nat
deriving DecidableEq

/-- Read the structure stored at address `p` in a foreign memory. -/
def memRead : List (Nat × RSA_METHOD) → Nat → Option RSA_METHOD
  | [], _ => none
  | e :: t, p => if e.1 = p then some e.2 else memRead t p

/-- Overwrite every entry at address `p` with structure `m`. -/
def memWrite : List (Nat × RSA_METHOD) → Nat → RSA_METHOD → List (Nat × RSA_METHOD)
  | [], _, _ => []
  | e :: t, p, m => (if e.1 = p then (p, m) else e) :: memWrite t p m

/-- Remove the entry at address `p`. -/
def memFree (l : List (Nat × RSA_METHOD)) (p : Nat) : List (Nat × RSA_METHOD) :=
  l.filter (fun e => !(e.1 == p))

/-- The foreign library's state: live allocations, a fresh-address counter and
the log of addresses passed to `RSA_meth_free`. -/
structure FState where
  mem : List (Nat × RSA_METHOD)
  next : Nat
  frees : List Nat
deriving DecidableEq

def FState.read (s : FState) (p : Nat) : Option RSA_METHOD :=
  memRead s.mem p

def FState.write (s : FState) (p : Nat) (m : RSA_METHOD) : FState :=
  ⟨memWrite s.mem p m, s.next, s.frees⟩

/-- Outcome of a Rust call: `Ok`, `Err(ErrorStack)`, or a Rust panic
(`unwrap` on a failed conversion). -/
inductive Outcome (α : Type) where
  | ok : α → Outcome α
  | err : Outcome α
  | panicked : Outcome α
deriving DecidableEq

/-- Modelled from the spec: `crate::cvt` (not under `src/`) — the generic
sign-based failure check every setter/accessor routes its C return through:
a value `≤ 0` is a failure sentinel surfaced as a typed error. -/
def cvt (r : Int) : Outcome Int :=
  if r ≤ 0 then .err else .ok r

/-- Modelled from the spec: `crate::cvt_p` (not under `src/`) — a null pointer
returned by the foreign allocator is surfaced as a typed error. -/
def cvt_p {α : Type} (p : Option α) : Outcome α :=
  match p with
  | some x => .ok x
  | none => .err

/-- Modelled from the spec: `crate::cvt_p_const` (not under `src/`) — as
`cvt_p`, for const pointers. -/
def cvt_p_const {α : Type} (p : Option α) : Outcome α :=
  match p with
  | some x => .ok x
  | none => .err

/-- `CString::new` fails exactly when the Rust string contains an embedded
NUL terminator character. -/
def containsNul (s : String) : Bool :=
  s.data.any (fun c => c.toNat = 0)

/-! ### Foreign primitives

Modelled from the spec's description of the consumed foreign facility
(opaque create/duplicate/destroy/get/set primitives over the descriptor
structure): each call is synchronous, a setter atomically replaces the
addressed field and returns the success sentinel `1`, `RSA_meth_new` and
`RSA_meth_dup` allocate a fresh structure (name and flags set, all slots
empty resp. a deep copy) or return null on allocation failure. -/

/-- The fresh structure `RSA_meth_new` builds: name and flags set, a null
`app_data`, every callback slot empty. -/
def freshMeth (nm : String) (flags : Int) : RSA_METHOD :=
  ⟨.utf8 nm, flags, 0, none, none, none, none, none, none,
    none, none, none, none, none, none⟩

/-- Modelled from the spec: `RSA_meth_new` — allocate a fresh structure with
the given name and flags, all callback slots empty and a null `app_data`;
returns null when the allocator fails. -/
def RSA_meth_new (allocOk : Bool) (nm : String) (flags : Int) (s : FState) :
    Option Nat × FState :=
  if allocOk then
    (some s.next, ⟨(s.next, freshMeth nm flags) :: s.mem, s.next + 1, s.frees⟩)
  else (none, s)

/-- Modelled from the spec: `RSA_meth_dup` — allocate an independent deep copy
of the structure's current state; returns null when the allocator fails. -/
def RSA_meth_dup (allocOk : Bool) (p : Nat) (s : FState) : Option Nat × FState :=
  match s.read p with
  | some m =>
    if allocOk then
      (some s.next, ⟨(s.next, m) :: s.mem, s.next + 1, s.frees⟩)
    else (none, s)
  | none => (none, s)

/-- Modelled from the spec: `RSA_meth_free` — destroy the structure at `p`;
the address is appended to the free log so that double frees are visible. -/
def RSA_meth_free (p : Nat) (s : FState) : FState :=
  ⟨memFree s.mem p, s.next, p :: s.frees⟩

/-- Modelled from the spec: `RSA_meth_get0_name` — pointer to the stored name
(never null on a live structure). -/
def RSA_meth_get0_name (p : Nat) (s : FState) : Option CBytes :=
  (s.read p).map (fun m => m.name)

/-- Modelled from the spec: `RSA_meth_set1_name` — copy the supplied string
into the structure; `1` on success, `0` when the copy's allocation fails. -/
def RSA_meth_set1_name (allocOk : Bool) (p : Nat) (nm : String) (s : FState) :
    Int × FState :=
  match s.read p with
  | some m =>
    if allocOk then (1, s.write p { m with name := .utf8 nm }) else (0, s)
  | none => (0, s)

/-- Modelled from the spec: `RSA_meth_get_flags` — the stored flags value. -/
def RSA_meth_get_flags (p : Nat) (s : FState) : Int :=
  match s.read p with
  | some m => m.flags
  | none => 0

/-- Modelled from the spec: `RSA_meth_set_flags` — store the flags value,
returning the success sentinel `1`. -/
def RSA_meth_set_flags (p : Nat) (f : Int) (s : FState) : Int × FState :=
  match s.read p with
  | some m => (1, s.write p { m with flags := f })
  | none => (0, s)

/-- Modelled from the spec: `RSA_meth_get0_app_data` — the stored untyped
pointer, returned without any validation. -/
def RSA_meth_get0_app_data (p : Nat) (s : FState) : Nat :=
  match s.read p with
  | some m => m.app_data
  | none => 0

/-- Modelled from the spec: `RSA_meth_set0_app_data` — store the untyped
pointer bit-for-bit, no validation, success sentinel `1`. -/
def RSA_meth_set0_app_data (p : Nat) (d : Nat) (s : FState) : Int × FState :=
  match s.read p with
  | some m => (1, s.write p { m with app_data := d })
  | none => (0, s)

/-- Modelled from the spec: `RSA_meth_set_pub_enc` — register the callback in
its slot, replacing any previous registration. -/
def RSA_meth_set_pub_enc (p : Nat) (f : Nat) (s : FState) : Int × FState :=
  match s.read p with
  | some m => (1, s.write p { m with pub_enc := some f })
  | none => (0, s)

/-- Modelled from the spec: `RSA_meth_set_pub_dec`. -/
def RSA_meth_set_pub_dec (p : Nat) (f : Nat) (s : FState) : Int × FState :=
  match s.read p with
  | some m => (1, s.write p { m with pub_dec := some f })
  | none => (0, s)

/-- Modelled from the spec: `RSA_meth_set_priv_enc`. -/
def RSA_meth_set_priv_enc (p : Nat) (f : Nat) (s : FState) : Int × FState :=
  match s.read p with
  | some m => (1, s.write p { m with priv_enc := some f })
  | none => (0, s)

/-- Modelled from the spec: `RSA_meth_set_priv_dec`. -/
def RSA_meth_set_priv_dec (p : Nat) (f : Nat) (s : FState) : Int × FState :=
  match s.read p with
  | some m => (1, s.write p { m with priv_dec := some f })
  | none => (0, s)

/-- Modelled from the spec: `RSA_meth_set_mod_exp`. -/
def RSA_meth_set_mod_exp (p : Nat) (f : Nat) (s : FState) : Int × FState :=
  match s.read p with
  | some m => (1, s.write p { m with mod_exp := some f })
  | none => (0, s)

/-- Modelled from the spec: `RSA_meth_set_bn_mod_exp`. -/
def RSA_meth_set_bn_mod_exp (p : Nat) (f : Nat) (s : FState) : Int × FState :=
  match s.read p with
  | some m => (1, s.write p { m with bn_mod_exp := some f })
  | none => (0, s)

/-- Modelled from the spec: `RSA_meth_set_init`. -/
def RSA_meth_set_init (p : Nat) (f : Nat) (s : FState) : Int × FState :=
  match s.read p with
  | some m => (1, s.write p { m with init := some f })
  | none => (0, s)

/-- Modelled from the spec: `RSA_meth_set_finish`. -/
def RSA_meth_set_finish (p : Nat) (f : Nat) (s : FState) : Int × FState :=
  match s.read p with
  | some m => (1, s.write p { m with finish := some f })
  | none => (0, s)

/-- Modelled from the spec: `RSA_meth_set_sign`. -/
def RSA_meth_set_sign (p : Nat) (f : Nat) (s : FState) : Int × FState :=
  match s.read p with
  | some m => (1, s.write p { m with sign := some f })
  | none => (0, s)

/-- Modelled from the spec: `RSA_meth_set_verify`. -/
def RSA_meth_set_verify (p : Nat) (f : Nat) (s : FState) : Int × FState :=
  match s.read p with
  | some m => (1, s.write p { m with verify := some f })
  | none => (0, s)

/-- Modelled from the spec: `RSA_meth_set_keygen`. -/
def RSA_meth_set_keygen (p : Nat) (f : Nat) (s : FState) : Int × FState :=
  match s.read p with
  | some m => (1, s.write p { m with keygen := some f })
  | none => (0, s)

/-- Modelled from the spec: `RSA_meth_set_multi_prime_keygen`
(feature-gated on `ossl111`). -/
def RSA_meth_set_multi_prime_keygen (p : Nat) (f : Nat) (s : FState) :
    Int × FState :=
  match s.read p with
  | some m => (1, s.write p { m with multi_prime_keygen := some f })
  | none => (0, s)

/-! ### The Rust wrapper, translated from `rsa_meth.rs`

A descriptor handle holds the raw pointer (`pub struct RsaMethod(*mut
ffi::RSA_METHOD)`), here a `Nat` address. Each method is translated line by
line; `unwrap` on a failed conversion is the `panicked` outcome. -/

namespace RsaMethod

/-- `RsaMethod::new`: `CString::new(name).unwrap()`, then
`cvt_p(ffi::RSA_meth_new(name.as_ptr(), flags))?`. -/
def new (allocOk : Bool) (name : String) (flags : Int) (s : FState) :
    Outcome Nat × FState :=
  if containsNul name then (.panicked, s)
  else
    let r := RSA_meth_new allocOk name flags s
    match cvt_p r.1 with
    | .ok ptr => (.ok ptr, r.2)
    | _ => (.err, r.2)

/-- `RsaMethod::as_ptr`: returns the raw pointer. -/
def as_ptr (p : Nat) : Nat := p

/-- `RsaMethod::from_ptr`: wraps a raw pointer into a new owning handle
(a safe, public constructor in the source). -/
def from_ptr (p : Nat) : Nat := p

/-- `RsaMethod::duplicate` (crate-private):
`cvt_p(ffi::RSA_meth_dup(self.as_ptr()))?`. -/
def duplicate (allocOk : Bool) (p : Nat) (s : FState) : Outcome Nat × FState :=
  let r := RSA_meth_dup allocOk (as_ptr p) s
  match cvt_p r.1 with
  | .ok ptr => (.ok ptr, r.2)
  | _ => (.err, r.2)

/-- `impl Clone for RsaMethod`: `self.duplicate().unwrap()` — a failed
duplication becomes a panic. -/
def clone (allocOk : Bool) (p : Nat) (s : FState) : Outcome Nat × FState :=
  match duplicate allocOk p s with
  | (.ok q, s') => (.ok q, s')
  | (_, s') => (.panicked, s')

/-- `impl Drop for RsaMethod`: `ffi::RSA_meth_free(self.as_ptr())`. -/
def drop (p : Nat) (s : FState) : FState :=
  RSA_meth_free (as_ptr p) s

/-- `RsaMethod::get_name`: `cvt_p_const(ffi::RSA_meth_get0_name(...))?`, then
`CStr::from_ptr(name).to_str().unwrap().to_owned()` — the UTF-8 conversion is
unchecked, so invalid bytes panic. -/
def get_name (p : Nat) (s : FState) : Outcome String :=
  match cvt_p_const (RSA_meth_get0_name (as_ptr p) s) with
  | .ok (.utf8 str) => .ok str
  | .ok .invalid => .panicked
  | _ => .err

/-- `RsaMethod::set_name`: `CString::new(name).unwrap()`, then
`cvt(ffi::RSA_meth_set1_name(...))?`. -/
def set_name (allocOk : Bool) (p : Nat) (name : String) (s : FState) :
    Outcome Unit × FState :=
  if containsNul name then (.panicked, s)
  else
    let r := RSA_meth_set1_name allocOk (as_ptr p) name s
    match cvt r.1 with
    | .ok _ => (.ok (), r.2)
    | _ => (.err, r.2)

/-- `RsaMethod::get_flags`: `cvt(ffi::RSA_meth_get_flags(self.as_ptr()))?` —
the stored flags value is routed through the sign-based failure check. -/
def get_flags (p : Nat) (s : FState) : Outcome Int :=
  match cvt (RSA_meth_get_flags (as_ptr p) s) with
  | .ok flags => .ok flags
  | .err => .err
  | .panicked => .panicked

/-- `RsaMethod::set_flags`: `cvt(ffi::RSA_meth_set_flags(...))?`. -/
def set_flags (p : Nat) (flags : Int) (s : FState) : Outcome Unit × FState :=
  let r := RSA_meth_set_flags (as_ptr p) flags s
  match cvt r.1 with
  | .ok _ => (.ok (), r.2)
  | _ => (.err, r.2)

/-- `RsaMethod::get_app_data`: the raw pointer is returned in `Ok` directly,
with no conversion check — this accessor never fails. -/
def get_app_data (p : Nat) (s : FState) : Outcome Nat :=
  .ok (RSA_meth_get0_app_data (as_ptr p) s)

/-- `RsaMethod::set_app_data`: `cvt(ffi::RSA_meth_set0_app_data(...))?`. -/
def set_app_data (p : Nat) (d : Nat) (s : FState) : Outcome Unit × FState :=
  let r := RSA_meth_set0_app_data (as_ptr p) d s
  match cvt r.1 with
  | .ok _ => (.ok (), r.2)
  | _ => (.err, r.2)

/-- `RsaMethod::set_pub_enc`: `cvt(ffi::RSA_meth_set_pub_enc(...))?`. -/
def set_pub_enc (p : Nat) (f : Nat) (s : FState) : Outcome Unit × FState :=
  let r := RSA_meth_set_pub_enc (as_ptr p) f s
  match cvt r.1 with
  | .ok _ => (.ok (), r.2)
  | _ => (.err, r.2)

/-- `RsaMethod::set_pub_dec`. -/
def set_pub_dec (p : Nat) (f : Nat) (s : FState) : Outcome Unit × FState :=
  let r := RSA_meth_set_pub_dec (as_ptr p) f s
  match cvt r.1 with
  | .ok _ => (.ok (), r.2)
  | _ => (.err, r.2)

/-- `RsaMethod::set_priv_enc`. -/
def set_priv_enc (p : Nat) (f : Nat) (s : FState) : Outcome Unit × FState :=
  let r := RSA_meth_set_priv_enc (as_ptr p) f s
  match cvt r.1 with
  | .ok _ => (.ok (), r.2)
  | _ => (.err, r.2)

/-- `RsaMethod::set_priv_dec`. -/
def set_priv_dec (p : Nat) (f : Nat) (s : FState) : Outcome Unit × FState :=
  let r := RSA_meth_set_priv_dec (as_ptr p) f s
  match cvt r.1 with
  | .ok _ => (.ok (), r.2)
  | _ => (.err, r.2)

/-- `RsaMethod::set_mod_exp`. -/
def set_mod_exp (p : Nat) (f : Nat) (s : FState) : Outcome Unit × FState :=
  let r := RSA_meth_set_mod_exp (as_ptr p) f s
  match cvt r.1 with
  | .ok _ => (.ok (), r.2)
  | _ => (.err, r.2)

/-- `RsaMethod::set_bn_mod_exp`. -/
def set_bn_mod_exp (p : Nat) (f : Nat) (s : FState) : Outcome Unit × FState :=
  let r := RSA_meth_set_bn_mod_exp (as_ptr p) f s
  match cvt r.1 with
  | .ok _ => (.ok (), r.2)
  | _ => (.err, r.2)

/-- `RsaMethod::set_init`. -/
def set_init (p : Nat) (f : Nat) (s : FState) : Outcome Unit × FState :=
  let r := RSA_meth_set_init (as_ptr p) f s
  match cvt r.1 with
  | .ok _ => (.ok (), r.2)
  | _ => (.err, r.2)

/-- `RsaMethod::set_finish`. -/
def set_finish (p : Nat) (f : Nat) (s : FState) : Outcome Unit × FState :=
  let r := RSA_meth_set_finish (as_ptr p) f s
  match cvt r.1 with
  | .ok _ => (.ok (), r.2)
  | _ => (.err, r.2)

/-- `RsaMethod::set_sign`. -/
def set_sign (p : Nat) (f : Nat) (s : FState) : Outcome Unit × FState :=
  let r := RSA_meth_set_sign (as_ptr p) f s
  match cvt r.1 with
  | .ok _ => (.ok (), r.2)
  | _ => (.err, r.2)

/-- `RsaMethod::set_verify`. -/
def set_verify (p : Nat) (f : Nat) (s : FState) : Outcome Unit × FState :=
  let r := RSA_meth_set_verify (as_ptr p) f s
  match cvt r.1 with
  | .ok _ => (.ok (), r.2)
  | _ => (.err, r.2)

/-- `RsaMethod::set_keygen`. -/
def set_keygen (p : Nat) (f : Nat) (s : FState) : Outcome Unit × FState :=
  let r := RSA_meth_set_keygen (as_ptr p) f s
  match cvt r.1 with
  | .ok _ => (.ok (), r.2)
  | _ => (.err, r.2)

/-- `RsaMethod::set_multi_prime_keygen` (feature-gated on `ossl111`). -/
def set_multi_prime_keygen (p : Nat) (f : Nat) (s : FState) :
    Outcome Unit × FState :=
  let r := RSA_meth_set_multi_prime_keygen (as_ptr p) f s
  match cvt r.1 with
  | .ok _ => (.ok (), r.2)
  | _ => (.err, r.2)

end RsaMethod

/-! ### The twelve callback slots as an index type -/

/-- The twelve callback slots of the descriptor. -/
inductive Slot where
  | pub_enc | pub_dec | priv_enc | priv_dec
  | mod_exp | bn_mod_exp | init | finish
  | sign | verify | keygen | multi_prime_keygen
deriving DecidableEq

/-- Read a callback slot of the foreign structure. -/
def RSA_METHOD.getSlot (m : RSA_METHOD) : Slot → Option Nat
  | .pub_enc => m.pub_enc
  | .pub_dec => m.pub_dec
  | .priv_enc => m.priv_enc
  | .priv_dec => m.priv_dec
  | .mod_exp => m.mod_exp
  | .bn_mod_exp => m.bn_mod_exp
  | .init => m.init
  | .finish => m.finish
  | .sign => m.sign
  | .verify => m.verify
  | .keygen => m.keygen
  | .multi_prime_keygen => m.multi_prime_keygen

/-- Dispatch to the Rust setter for a given slot (each branch is the
translated `RsaMethod::set_*` method). -/
def setSlot : Slot → Nat → Nat → FState → Outcome Unit × FState
  | .pub_enc => RsaMethod.set_pub_enc
  | .pub_dec => RsaMethod.set_pub_dec
  | .priv_enc => RsaMethod.set_priv_enc
  | .priv_dec => RsaMethod.set_priv_dec
  | .mod_exp => RsaMethod.set_mod_exp
  | .bn_mod_exp => RsaMethod.set_bn_mod_exp
  | .init => RsaMethod.set_init
  | .finish => RsaMethod.set_finish
  | .sign => RsaMethod.set_sign
  | .verify => RsaMethod.set_verify
  | .keygen => RsaMethod.set_keygen
  | .multi_prime_keygen => RsaMethod.set_multi_prime_keygen

/-- A mutation of a descriptor through the public interface (used to state
independence of a duplicate from its original). -/
inductive Mut where
  | mName : String → Mut
  | mFlags : Int → Mut
  | mApp : Nat → Mut
  | mSlot : Slot → Nat → Mut

/-- The state after applying a mutation to the descriptor at `p` (the
allocation oracle of `set_name` set to success). -/
def applyMut (mu : Mut) (p : Nat) (s : FState) : FState :=
  match mu with
  | .mName nm => (RsaMethod.set_name true p nm s).2
  | .mFlags f => (RsaMethod.set_flags p f s).2
  | .mApp d => (RsaMethod.set_app_data p d s).2
  | .mSlot sl f => (setSlot sl p f s).2

/-! ### Traces over the public interface (ownership model)

`Op` is one public-interface step acting on a table of handles; a dropped
handle's slot becomes `none`. `opFromPtr i` is
`RsaMethod::from_ptr(handles[i].as_ptr())` — the public pointer-forging
pair of the source. -/

/-- One public-interface operation, addressing handles by their index in the
handle table. -/
inductive Op where
  | opNew : String → Int → Op
  | opClone : Nat → Op
  | opFromPtr : Nat → Op
  | opDrop : Nat → Op
deriving DecidableEq

/-- Whether an operation is the pointer-forging `from_ptr`. -/
def Op.isFromPtr : Op → Bool
  | .opFromPtr _ => true
  | _ => false

/-- A system state: the foreign state plus the table of handles created so
far (`none` marks a dropped handle). -/
structure Sys where
  fs : FState
  handles : List (Option Nat)
deriving DecidableEq

/-- Execute one public-interface operation (allocation oracles set to
success). -/
def stepOp (sys : Sys) : Op → Sys
  | .opNew nm fl =>
    match RsaMethod.new true nm fl sys.fs with
    | (.ok p, fs') => ⟨fs', sys.handles ++ [some p]⟩
    | (_, fs') => ⟨fs', sys.handles⟩
  | .opClone i =>
    match sys.handles.getD i none with
    | some p =>
      match RsaMethod.clone true p sys.fs with
      | (.ok q, fs') => ⟨fs', sys.handles ++ [some q]⟩
      | (_, fs') => ⟨fs', sys.handles⟩
    | none => sys
  | .opFromPtr i =>
    match sys.handles.getD i none with
    | some p => ⟨sys.fs, sys.handles ++ [some (RsaMethod.from_ptr (RsaMethod.as_ptr p))]⟩
    | none => sys
  | .opDrop i =>
    match sys.handles.getD i none with
    | some p => ⟨RsaMethod.drop p sys.fs, sys.handles.set i none⟩
    | none => sys

/-- The empty initial state: no allocations, no handles. -/
def initSys : Sys := ⟨⟨[], 0, []⟩, []⟩

/-- Run a trace of public-interface operations from the empty state. -/
def runOps (ops : List Op) : Sys :=
  ops.foldl stepOp initSys

/-- The pointers held by the currently live handles. -/
def livePtrs (sys : Sys) : List Nat :=
  sys.handles.filterMap id

/-- The addresses of the currently live foreign allocations. -/
def memKeys (s : FState) : List Nat :=
  s.mem.map Prod.fst

/-- The ownership/lifetime invariant: live handles hold pairwise-distinct
pointers (exactly one owning handle per structure), every live handle points
at a live allocation (no access after free), no address is freed twice, and
freed addresses are no longer allocated. -/
def SysInv (sys : Sys) : Prop :=
  sys.fs.frees.Nodup ∧
  (livePtrs sys).Nodup ∧
  (∀ p ∈ livePtrs sys, p ∈ memKeys sys.fs) ∧
  (∀ p ∈ sys.fs.frees, p ∉ memKeys sys.fs) ∧
  (memKeys sys.fs).Nodup ∧
  (∀ p ∈ memKeys sys.fs, p < sys.fs.next) ∧
  (∀ p ∈ sys.fs.frees, p < sys.fs.next)

/-- Update one callback slot of the foreign structure (the field update each
`RSA_meth_set_*` primitive performs). -/
def RSA_METHOD.withSlot (m : RSA_METHOD) : Slot → Nat → RSA_METHOD
  | .pub_enc, f => { m with pub_enc := some f }
  | .pub_dec, f => { m with pub_dec := some f }
  | .priv_enc, f => { m with priv_enc := some f }
  | .priv_dec, f => { m with priv_dec := some f }
  | .mod_exp, f => { m with mod_exp := some f }
  | .bn_mod_exp, f => { m with bn_mod_exp := some f }
  | .init, f => { m with init := some f }
  | .finish, f => { m with finish := some f }
  | .sign, f => { m with sign := some f }
  | .verify, f => { m with verify := some f }
  | .keygen, f => { m with keygen := some f }
  | .multi_prime_keygen, f => { m with multi_prime_keygen := some f }

/-! ### Concrete fixtures used by witnesses and counterexamples -/

/-- The empty foreign state. -/
def st0 : FState := ⟨[], 0, []⟩

/-- A concrete live structure at address `0`. -/
def m0 : RSA_METHOD :=
  ⟨.utf8 "TEST", 7, 5, none, none, none, none, none, none,
    none, none, none, none, none, none⟩

/-- A state holding `m0` at address `0`. -/
def s1 : FState := ⟨[(0, m0)], 1, []⟩

/-- A structure whose foreign name bytes are not valid UTF-8 (installable
only from the foreign side, e.g. through `from_ptr`). -/
def mBad : RSA_METHOD :=
  ⟨.invalid, 7, 5, none, none, none, none, none, none,
    none, none, none, none, none, none⟩

/-- A state holding `mBad` at address `0`. -/
def s2 : FState := ⟨[(0, mBad)], 1, []⟩

/-- A Rust string containing an embedded NUL terminator character. -/
def nulName : String := String.mk [Char.ofNat 84, Char.ofNat 0]

/-- The double-free trace: create a descriptor, forge a second owning handle
over the same pointer with `from_ptr(as_ptr())`, then drop both. -/
def doubleFreeTrace : List Op :=
  [.opNew "TEST" 1, .opFromPtr 0, .opDrop 0, .opDrop 1]

/-- The prefix of `doubleFreeTrace` after which two owning handles exist over
one foreign structure. -/
def twoOwnersTrace : List Op := [.opNew "TEST" 1, .opFromPtr 0]

/-! ### Memory lemmas -/

theorem memRead_write_self : ∀ (l : List (Nat × RSA_METHOD)) (p : Nat)
    (m m' : RSA_METHOD), memRead l p = some m →
    memRead (memWrite l p m') p = some m'
  | [], p, m, m', h => by simp [memRead] at h
  | e :: t, p, m, m', h => by
    by_cases hp : e.1 = p
    · simp [memRead, memWrite, hp]
    · simp only [memRead, memWrite, if_neg hp] at h ⊢
      exact memRead_write_self t p m m' h

theorem memRead_write_ne : ∀ (l : List (Nat × RSA_METHOD)) (p q : Nat)
    (m' : RSA_METHOD), q ≠ p → memRead (memWrite l p m') q = memRead l q
  | [], _, _, _, _ => rfl
  | ⟨a, mv⟩ :: t, p, q, m', h => by
    by_cases hp : a = p
    · subst hp
      show memRead ((if a = a then ((a, m') : Nat × RSA_METHOD) else (a, mv)) ::
        memWrite t a m') q = memRead ((⟨a, mv⟩ : Nat × RSA_METHOD) :: t) q
      rw [if_pos rfl]
      show (if a = q then some m' else memRead (memWrite t a m') q) =
        (if a = q then some mv else memRead t q)
      rw [if_neg (fun hq : a = q => h hq.symm), if_neg (fun hq : a = q => h hq.symm)]
      exact memRead_write_ne t a q m' h
    · simp only [memWrite, memRead, if_neg hp]
      by_cases hq : a = q
      · rw [if_pos hq, if_pos hq]
      · rw [if_neg hq, if_neg hq]
        exact memRead_write_ne t p q m' h

theorem mem_keys_of_memRead : ∀ (l : List (Nat × RSA_METHOD)) (p : Nat)
    (m : RSA_METHOD), memRead l p = some m → p ∈ l.map Prod.fst
  | [], p, m, h => by simp [memRead] at h
  | e :: t, p, m, h => by
    by_cases hp : e.1 = p
    · rw [List.map_cons, hp]
      exact List.mem_cons_self _ _
    · simp only [memRead, if_neg hp] at h
      rw [List.map_cons]
      exact List.mem_cons_of_mem _ (mem_keys_of_memRead t p m h)

theorem memRead_of_mem_keys : ∀ (l : List (Nat × RSA_METHOD)) (p : Nat),
    p ∈ l.map Prod.fst → ∃ m, memRead l p = some m
  | [], p, h => by simp at h
  | e :: t, p, h => by
    by_cases hp : e.1 = p
    · exact ⟨e.2, by simp [memRead, hp]⟩
    · rw [List.map_cons] at h
      rcases List.mem_cons.1 h with h | h
      · exact absurd h.symm hp
      · obtain ⟨m, hm⟩ := memRead_of_mem_keys t p h
        exact ⟨m, by simp [memRead, hp, hm]⟩

theorem mem_memFree_keys (l : List (Nat × RSA_METHOD)) (p q : Nat) :
    q ∈ (memFree l p).map Prod.fst ↔ q ∈ l.map Prod.fst ∧ q ≠ p := by
  simp only [memFree, List.mem_map, List.mem_filter, Bool.not_eq_true',
    beq_eq_false_iff_ne]
  constructor
  · rintro ⟨e, ⟨he, hne⟩, rfl⟩
    exact ⟨⟨e, he, rfl⟩, hne⟩
  · rintro ⟨⟨e, he, rfl⟩, hq⟩
    exact ⟨e, ⟨he, hq⟩, rfl⟩

theorem memFree_keys_sublist (l : List (Nat × RSA_METHOD)) (p : Nat) :
    ((memFree l p).map Prod.fst).Sublist (l.map Prod.fst) :=
  (List.filter_sublist l).map Prod.fst

/-! ### Characterization of the wrapper operations -/

theorem cvt_one : cvt 1 = .ok 1 := by decide

theorem getSlot_withSlot_self (m : RSA_METHOD) (sl : Slot) (f : Nat) :
    (m.withSlot sl f).getSlot sl = some f := by
  cases sl <;> rfl

theorem getSlot_withSlot_ne (m : RSA_METHOD) (sl sl' : Slot) (f : Nat)
    (h : sl' ≠ sl) : (m.withSlot sl f).getSlot sl' = m.getSlot sl' := by
  cases sl <;> cases sl' <;> first | rfl | exact absurd rfl h

theorem withSlot_scalars (m : RSA_METHOD) (sl : Slot) (f : Nat) :
    (m.withSlot sl f).name = m.name ∧ (m.withSlot sl f).flags = m.flags ∧
      (m.withSlot sl f).app_data = m.app_data := by
  cases sl <;> exact ⟨rfl, rfl, rfl⟩

theorem setSlot_live (s : FState) (p : Nat) (m : RSA_METHOD) (sl : Slot)
    (f : Nat) (h : s.read p = some m) :
    setSlot sl p f s = (.ok (), s.write p (m.withSlot sl f)) := by
  cases sl <;>
    simp [setSlot, RSA_METHOD.withSlot, RsaMethod.as_ptr, cvt_one, h,
      RsaMethod.set_pub_enc, RsaMethod.set_pub_dec, RsaMethod.set_priv_enc,
      RsaMethod.set_priv_dec, RsaMethod.set_mod_exp, RsaMethod.set_bn_mod_exp,
      RsaMethod.set_init, RsaMethod.set_finish, RsaMethod.set_sign,
      RsaMethod.set_verify, RsaMethod.set_keygen,
      RsaMethod.set_multi_prime_keygen,
      RSA_meth_set_pub_enc, RSA_meth_set_pub_dec, RSA_meth_set_priv_enc,
      RSA_meth_set_priv_dec, RSA_meth_set_mod_exp, RSA_meth_set_bn_mod_exp,
      RSA_meth_set_init, RSA_meth_set_finish, RSA_meth_set_sign,
      RSA_meth_set_verify, RSA_meth_set_keygen,
      RSA_meth_set_multi_prime_keygen]

theorem set_flags_live (s : FState) (p : Nat) (m : RSA_METHOD) (f : Int)
    (h : s.read p = some m) :
    RsaMethod.set_flags p f s = (.ok (), s.write p { m with flags := f }) := by
  simp [RsaMethod.set_flags, RsaMethod.as_ptr, RSA_meth_set_flags, h, cvt_one]

theorem set_app_data_live (s : FState) (p : Nat) (m : RSA_METHOD) (d : Nat)
    (h : s.read p = some m) :
    RsaMethod.set_app_data p d s = (.ok (), s.write p { m with app_data := d }) := by
  simp [RsaMethod.set_app_data, RsaMethod.as_ptr, RSA_meth_set0_app_data, h, cvt_one]

theorem set_name_live (s : FState) (p : Nat) (m : RSA_METHOD) (nm : String)
    (hnul : containsNul nm = false) (h : s.read p = some m) :
    RsaMethod.set_name true p nm s =
      (.ok (), s.write p { m with name := .utf8 nm }) := by
  simp [RsaMethod.set_name, hnul, RsaMethod.as_ptr, RSA_meth_set1_name, h, cvt_one]

theorem set_name_nul (allocOk : Bool) (s : FState) (p : Nat) (nm : String)
    (hnul : containsNul nm = true) :
    RsaMethod.set_name allocOk p nm s = (.panicked, s) := by
  simp [RsaMethod.set_name, hnul]

theorem new_nul (allocOk : Bool) (s : FState) (nm : String) (fl : Int)
    (hnul : containsNul nm = true) :
    RsaMethod.new allocOk nm fl s = (.panicked, s) := by
  simp [RsaMethod.new, hnul]

theorem new_ok (s : FState) (nm : String) (fl : Int)
    (hnul : containsNul nm = false) :
    RsaMethod.new true nm fl s =
      (.ok s.next, ⟨(s.next, freshMeth nm fl) :: s.mem, s.next + 1, s.frees⟩) := by
  simp [RsaMethod.new, hnul, RSA_meth_new, cvt_p]

theorem new_allocFail (s : FState) (nm : String) (fl : Int)
    (hnul : containsNul nm = false) :
    RsaMethod.new false nm fl s = (.err, s) := by
  simp [RsaMethod.new, hnul, RSA_meth_new, cvt_p]

theorem duplicate_live (s : FState) (p : Nat) (m : RSA_METHOD)
    (h : s.read p = some m) :
    RsaMethod.duplicate true p s =
      (.ok s.next, ⟨(s.next, m) :: s.mem, s.next + 1, s.frees⟩) := by
  simp [RsaMethod.duplicate, RsaMethod.as_ptr, RSA_meth_dup, h, cvt_p]

theorem duplicate_allocFail (s : FState) (p : Nat) :
    RsaMethod.duplicate false p s = (.err, s) := by
  cases h : s.read p <;>
    simp [RsaMethod.duplicate, RsaMethod.as_ptr, RSA_meth_dup, h, cvt_p]

theorem clone_live (s : FState) (p : Nat) (m : RSA_METHOD)
    (h : s.read p = some m) :
    RsaMethod.clone true p s =
      (.ok s.next, ⟨(s.next, m) :: s.mem, s.next + 1, s.frees⟩) := by
  simp [RsaMethod.clone, duplicate_live s p m h]

theorem clone_allocFail (s : FState) (p : Nat) :
    RsaMethod.clone false p s = (.panicked, s) := by
  simp [RsaMethod.clone, duplicate_allocFail s p]

theorem clone_dead (s : FState) (p : Nat) (allocOk : Bool)
    (h : s.read p = none) :
    RsaMethod.clone allocOk p s = (.panicked, s) := by
  simp [RsaMethod.clone, RsaMethod.duplicate, RsaMethod.as_ptr, RSA_meth_dup,
    h, cvt_p]

theorem outcome_match_id (o : Outcome Int) :
    (match o with
      | .ok flags => Outcome.ok flags
      | .err => Outcome.err
      | .panicked => Outcome.panicked) = o := by
  cases o <;> rfl

theorem get_flags_live (s : FState) (p : Nat) (m : RSA_METHOD)
    (h : s.read p = some m) :
    RsaMethod.get_flags p s = cvt m.flags := by
  rw [RsaMethod.get_flags]
  rw [show RSA_meth_get_flags (RsaMethod.as_ptr p) s = m.flags by
    simp [RSA_meth_get_flags, RsaMethod.as_ptr, h]]
  exact outcome_match_id _

theorem get_name_utf8_eq (s : FState) (p : Nat) (m : RSA_METHOD) (str : String)
    (h : s.read p = some m) (hn : m.name = .utf8 str) :
    RsaMethod.get_name p s = .ok str := by
  simp [RsaMethod.get_name, RSA_meth_get0_name, RsaMethod.as_ptr, h, hn,
    cvt_p_const]

theorem get_name_invalid_eq (s : FState) (p : Nat) (m : RSA_METHOD)
    (h : s.read p = some m) (hn : m.name = .invalid) :
    RsaMethod.get_name p s = .panicked := by
  simp [RsaMethod.get_name, RSA_meth_get0_name, RsaMethod.as_ptr, h, hn,
    cvt_p_const]

theorem get_app_data_eq (s : FState) (p : Nat) (m : RSA_METHOD)
    (h : s.read p = some m) :
    RsaMethod.get_app_data p s = .ok m.app_data := by
  simp [RsaMethod.get_app_data, RSA_meth_get0_app_data, RsaMethod.as_ptr, h]

theorem read_write_self (s : FState) (p : Nat) (m m' : RSA_METHOD)
    (h : s.read p = some m) : (s.write p m').read p = some m' :=
  memRead_write_self s.mem p m m' h

theorem read_write_ne (s : FState) (p q : Nat) (m' : RSA_METHOD)
    (h : q ≠ p) : (s.write p m').read q = s.read q :=
  memRead_write_ne s.mem p q m' h

/-! ### Handle-table and trace lemmas -/

theorem getD_some_mem_filterMap : ∀ (l : List (Option Nat)) (i : Nat) (p : Nat),
    l.getD i none = some p → p ∈ l.filterMap id
  | [], i, p, h => by simp [List.getD] at h
  | a :: t, 0, p, h => by
    simp only [List.getD_cons_zero] at h
    subst h
    simp [List.filterMap_cons]
  | a :: t, i + 1, p, h => by
    simp only [List.getD_cons_succ] at h
    have hm := getD_some_mem_filterMap t i p h
    cases a <;> simp [List.filterMap_cons, hm]

theorem set_none_filterMap_sublist : ∀ (l : List (Option Nat)) (i : Nat),
    ((l.set i none).filterMap id).Sublist (l.filterMap id)
  | [], _ => by simp
  | a :: t, 0 => by
    simp only [List.set_cons_zero, List.filterMap_cons]
    cases a with
    | none => simp
    | some x =>
      simp only [id_eq]
      exact List.sublist_cons_self x _
  | a :: t, i + 1 => by
    simp only [List.set_cons_succ, List.filterMap_cons]
    cases a with
    | none => exact set_none_filterMap_sublist t i
    | some x => exact (set_none_filterMap_sublist t i).cons₂ x

theorem not_mem_set_none_filterMap : ∀ (l : List (Option Nat)) (i : Nat) (p : Nat),
    (l.filterMap id).Nodup → l.getD i none = some p →
    p ∉ (l.set i none).filterMap id
  | [], i, p, _, h => by simp [List.getD] at h
  | a :: t, 0, p, hnd, h => by
    simp only [List.getD_cons_zero] at h
    subst h
    simp only [List.set_cons_zero, List.filterMap_cons, id_eq] at hnd ⊢
    exact (List.nodup_cons.1 hnd).1
  | a :: t, i + 1, p, hnd, h => by
    simp only [List.getD_cons_succ] at h
    cases a with
    | none =>
      simp only [List.set_cons_succ, List.filterMap_cons] at hnd ⊢
      exact not_mem_set_none_filterMap t i p hnd h
    | some x =>
      simp only [List.set_cons_succ, List.filterMap_cons, id_eq] at hnd ⊢
      intro hc
      rcases List.mem_cons.1 hc with hc | hc
      · subst hc
        exact (List.nodup_cons.1 hnd).1 (getD_some_mem_filterMap t i p h)
      · exact not_mem_set_none_filterMap t i p (List.nodup_cons.1 hnd).2 h hc

theorem nodup_append_singleton {l : List Nat} {x : Nat} (h : l.Nodup)
    (hx : x ∉ l) : (l ++ [x]).Nodup := by
  refine List.Nodup.append h (List.nodup_singleton x) ?_
  intro a ha hax
  rw [List.mem_singleton] at hax
  exact hx (hax ▸ ha)

theorem livePtrs_append_some (sys : Sys) (fs' : FState) (q : Nat) :
    livePtrs ⟨fs', sys.handles ++ [some q]⟩ = livePtrs sys ++ [q] := by
  simp [livePtrs, List.filterMap_append]

theorem memKeys_cons (fs : FState) (q : Nat) (mm : RSA_METHOD) :
    memKeys ⟨(q, mm) :: fs.mem, fs.next + 1, fs.frees⟩ = q :: memKeys fs := by
  simp [memKeys]

theorem inv_alloc (sys : Sys) (mm : RSA_METHOD) (hi : SysInv sys) :
    SysInv ⟨⟨(sys.fs.next, mm) :: sys.fs.mem, sys.fs.next + 1, sys.fs.frees⟩,
      sys.handles ++ [some sys.fs.next]⟩ := by
  obtain ⟨h1, h2, h3, h4, h5, h6, h7⟩ := hi
  have hnl : sys.fs.next ∉ livePtrs sys := fun hc =>
    absurd (h6 _ (h3 _ hc)) (lt_irrefl _)
  have hnk : sys.fs.next ∉ memKeys sys.fs := fun hc =>
    absurd (h6 _ hc) (lt_irrefl _)
  refine ⟨h1, ?_, ?_, ?_, ?_, ?_, ?_⟩
  · rw [show livePtrs ⟨⟨(sys.fs.next, mm) :: sys.fs.mem, sys.fs.next + 1,
      sys.fs.frees⟩, sys.handles ++ [some sys.fs.next]⟩ =
      livePtrs sys ++ [sys.fs.next] from livePtrs_append_some sys _ _]
    exact nodup_append_singleton h2 hnl
  · intro p hp
    rw [livePtrs_append_some sys] at hp
    rw [memKeys_cons]
    rcases List.mem_append.1 hp with hp | hp
    · exact List.mem_cons_of_mem _ (h3 p hp)
    · rw [List.mem_singleton] at hp
      exact hp ▸ List.mem_cons_self _ _
  · intro p hp
    rw [memKeys_cons, List.mem_cons]
    rintro (hc | hc)
    · exact absurd (hc ▸ h7 p hp) (lt_irrefl _)
    · exact h4 p hp hc
  · rw [memKeys_cons]
    exact List.nodup_cons.2 ⟨hnk, h5⟩
  · intro p hp
    rw [memKeys_cons, List.mem_cons] at hp
    rcases hp with hp | hp
    · subst hp
      exact Nat.lt_succ_self _
    · exact Nat.lt_succ_of_lt (h6 p hp)
  · intro p hp
    exact Nat.lt_succ_of_lt (h7 p hp)

theorem inv_drop (sys : Sys) (i : Nat) (p : Nat)
    (hg : sys.handles.getD i none = some p) (hi : SysInv sys) :
    SysInv ⟨RSA_meth_free p sys.fs, sys.handles.set i none⟩ := by
  obtain ⟨h1, h2, h3, h4, h5, h6, h7⟩ := hi
  have hpl : p ∈ livePtrs sys := getD_some_mem_filterMap _ i p hg
  have hpk : p ∈ memKeys sys.fs := h3 p hpl
  have hpf : p ∉ sys.fs.frees := fun hc => h4 p hc hpk
  have hpnotin : p ∉ (sys.handles.set i none).filterMap id :=
    not_mem_set_none_filterMap _ i p h2 hg
  have hsub : ((sys.handles.set i none).filterMap id).Sublist
      (sys.handles.filterMap id) := set_none_filterMap_sublist _ i
  refine ⟨?_, ?_, ?_, ?_, ?_, ?_, ?_⟩
  · exact List.nodup_cons.2 ⟨hpf, h1⟩
  · exact h2.sublist hsub
  · intro q hq
    have hql : q ∈ livePtrs sys := hsub.subset hq
    have hqp : q ≠ p := fun hc => hpnotin (hc ▸ hq)
    exact (mem_memFree_keys sys.fs.mem p q).2 ⟨h3 q hql, hqp⟩
  · intro q hq
    rcases List.mem_cons.1 hq with hq | hq
    · subst hq
      intro hc
      exact ((mem_memFree_keys sys.fs.mem q q).1 hc).2 rfl
    · intro hc
      exact h4 q hq ((mem_memFree_keys sys.fs.mem p q).1 hc).1
  · exact h5.sublist (memFree_keys_sublist sys.fs.mem p)
  · intro q hq
    exact h6 q ((mem_memFree_keys sys.fs.mem p q).1 hq).1
  · intro q hq
    rcases List.mem_cons.1 hq with hq | hq
    · exact hq ▸ h6 p hpk
    · exact h7 q hq

theorem stepOp_inv (sys : Sys) (op : Op) (hf : op.isFromPtr = false)
    (hi : SysInv sys) : SysInv (stepOp sys op) := by
  cases op with
  | opNew nm fl =>
    by_cases hnul : containsNul nm = true
    · simp only [stepOp, new_nul true sys.fs nm fl hnul]
      exact hi
    · have hnul' : containsNul nm = false := by simpa using hnul
      simp only [stepOp, new_ok sys.fs nm fl hnul']
      exact inv_alloc sys (freshMeth nm fl) hi
  | opClone i =>
    cases hg : sys.handles.getD i none with
    | none =>
      simp only [stepOp, hg]
      exact hi
    | some p =>
      have hpl : p ∈ livePtrs sys := getD_some_mem_filterMap _ i p hg
      have hpk : p ∈ memKeys sys.fs := hi.2.2.1 p hpl
      obtain ⟨m, hm⟩ := memRead_of_mem_keys sys.fs.mem p hpk
      have hm' : sys.fs.read p = some m := hm
      simp only [stepOp, hg, clone_live sys.fs p m hm']
      exact inv_alloc sys m hi
  | opFromPtr i => simp [Op.isFromPtr] at hf
  | opDrop i =>
    cases hg : sys.handles.getD i none with
    | none =>
      simp only [stepOp, hg]
      exact hi
    | some p =>
      simp only [stepOp, hg, RsaMethod.drop, RsaMethod.as_ptr]
      exact inv_drop sys i p hg hi

theorem foldl_stepOp_inv : ∀ (ops : List Op) (sys : Sys),
    (∀ op ∈ ops, op.isFromPtr = false) → SysInv sys →
    SysInv (ops.foldl stepOp sys)
  | [], _, _, hi => hi
  | op :: t, sys, hops, hi => by
    rw [List.foldl_cons]
    exact foldl_stepOp_inv t (stepOp sys op)
      (fun o ho => hops o (List.mem_cons_of_mem _ ho))
      (stepOp_inv sys op (hops op (List.mem_cons_self _ _)) hi)

theorem initSys_inv : SysInv initSys := by
  refine ⟨List.nodup_nil, List.nodup_nil, ?_, ?_, List.nodup_nil, ?_, ?_⟩ <;>
    intro p hp <;> simp [livePtrs, memKeys, initSys] at hp

theorem get_name_congr (s : FState) (p q : Nat) (m : RSA_METHOD)
    (hp : s.read p = some m) (hq : s.read q = some m) :
    RsaMethod.get_name p s = RsaMethod.get_name q s := by
  cases hn : m.name with
  | utf8 str =>
    rw [get_name_utf8_eq s p m str hp hn, get_name_utf8_eq s q m str hq hn]
  | invalid =>
    rw [get_name_invalid_eq s p m hp hn, get_name_invalid_eq s q m hq hn]

theorem get_flags_congr (s : FState) (p q : Nat) (m : RSA_METHOD)
    (hp : s.read p = some m) (hq : s.read q = some m) :
    RsaMethod.get_flags p s = RsaMethod.get_flags q s := by
  rw [get_flags_live s p m hp, get_flags_live s q m hq]

theorem get_app_data_congr (s : FState) (p q : Nat) (m : RSA_METHOD)
    (hp : s.read p = some m) (hq : s.read q = some m) :
    RsaMethod.get_app_data p s = RsaMethod.get_app_data q s := by
  rw [get_app_data_eq s p m hp, get_app_data_eq s q m hq]

theorem applyMut_read_ne (mu : Mut) (p q : Nat) (s : FState) (hq : q ≠ p) :
    (applyMut mu p s).read q = s.read q := by
  cases mu with
  | mName nm =>
    by_cases hnul : containsNul nm = true
    · simp [applyMut, RsaMethod.set_name, hnul]
    · cases h : s.read p with
      | some mm =>
        rw [applyMut, set_name_live s p mm nm (by simpa using hnul) h]
        exact read_write_ne s p q _ hq
      | none =>
        simp [applyMut, RsaMethod.set_name, hnul, RsaMethod.as_ptr,
          RSA_meth_set1_name, h, cvt]
  | mFlags f =>
    cases h : s.read p with
    | some mm =>
      rw [applyMut, set_flags_live s p mm f h]
      exact read_write_ne s p q _ hq
    | none =>
      simp [applyMut, RsaMethod.set_flags, RsaMethod.as_ptr,
        RSA_meth_set_flags, h, cvt]
  | mApp d =>
    cases h : s.read p with
    | some mm =>
      rw [applyMut, set_app_data_live s p mm d h]
      exact read_write_ne s p q _ hq
    | none =>
      simp [applyMut, RsaMethod.set_app_data, RsaMethod.as_ptr,
        RSA_meth_set0_app_data, h, cvt]
  | mSlot sl f =>
    cases h : s.read p with
    | some mm =>
      rw [applyMut, setSlot_live s p mm sl f h]
      exact read_write_ne s p q _ hq
    | none =>
      cases sl <;>
        simp [applyMut, setSlot, RsaMethod.as_ptr, h, cvt,
          RsaMethod.set_pub_enc, RsaMethod.set_pub_dec, RsaMethod.set_priv_enc,
          RsaMethod.set_priv_dec, RsaMethod.set_mod_exp,
          RsaMethod.set_bn_mod_exp, RsaMethod.set_init, RsaMethod.set_finish,
          RsaMethod.set_sign, RsaMethod.set_verify, RsaMethod.set_keygen,
          RsaMethod.set_multi_prime_keygen,
          RSA_meth_set_pub_enc, RSA_meth_set_pub_dec, RSA_meth_set_priv_enc,
          RSA_meth_set_priv_dec, RSA_meth_set_mod_exp, RSA_meth_set_bn_mod_exp,
          RSA_meth_set_init, RSA_meth_set_finish, RSA_meth_set_sign,
          RSA_meth_set_verify, RSA_meth_set_keygen,
          RSA_meth_set_multi_prime_keygen]

/-! ### Claim theorems -/

/-- C1 (counterexample): the spec's concrete scenario `new("TEST", 0)` then
`get_flags()` does not return `Ok(0)`: construction succeeds, but `get_flags`
routes the stored `0` through the sign-based failure check and returns `Err`. -/
theorem C1_counterexample :
    (RsaMethod.new true "TEST" 0 st0).1 = .ok 0 ∧
      RsaMethod.get_flags 0 (RsaMethod.new true "TEST" 0 st0).2 = .err ∧
      RsaMethod.get_flags 0 (RsaMethod.new true "TEST" 0 st0).2 ≠ .ok 0 :=
  ⟨by decide, by decide, by decide⟩

/-- C1 (amended): on a live descriptor, `set_flags(x)` succeeds for every
`x`, and the subsequent `get_flags()` returns `Ok(x)` exactly when `x` is
positive; for `x ≤ 0` (including `0` and every negative value) it returns
`Err`, because the stored flags value is routed through the sign-based
failure check. -/
theorem C1_flags_roundtrip_positive (s : FState) (p : Nat) (m : RSA_METHOD)
    (x : Int) (h : s.read p = some m) :
    (RsaMethod.set_flags p x s).1 = .ok () ∧
      (0 < x → RsaMethod.get_flags p (RsaMethod.set_flags p x s).2 = .ok x) ∧
      (x ≤ 0 → RsaMethod.get_flags p (RsaMethod.set_flags p x s).2 = .err) := by
  rw [set_flags_live s p m x h]
  have hr : (s.write p { m with flags := x }).read p = some { m with flags := x } :=
    read_write_self s p m _ h
  refine ⟨rfl, ?_, ?_⟩
  · intro hx
    rw [get_flags_live _ p _ hr]
    show cvt x = .ok x
    rw [cvt, if_neg (not_le.mpr hx)]
  · intro hx
    rw [get_flags_live _ p _ hr]
    show cvt x = .err
    rw [cvt, if_pos hx]

/-- C1 (witness): the amended law evaluated at the live descriptor `m0`
(address `0` of `s1`) and the flags value `3`. -/
theorem C1_witness :
    s1.read 0 = some m0 ∧
      ((RsaMethod.set_flags 0 3 s1).1 = .ok () ∧
        (0 < (3 : Int) →
          RsaMethod.get_flags 0 (RsaMethod.set_flags 0 3 s1).2 = .ok 3) ∧
        ((3 : Int) ≤ 0 →
          RsaMethod.get_flags 0 (RsaMethod.set_flags 0 3 s1).2 = .err)) :=
  ⟨by decide, C1_flags_roundtrip_positive s1 0 m0 3 (by decide)⟩

/-- C2 (counterexample): on the name `nulName` (which contains an embedded
NUL), `new` and `set_name` panic (`CString::new(..).unwrap()`); the result is
not the typed error `Err` the claim requires. -/
theorem C2_counterexample :
    (RsaMethod.new true nulName 0 st0).1 = .panicked ∧
      (RsaMethod.new true nulName 0 st0).1 ≠ .err ∧
      (RsaMethod.set_name true 0 nulName s1).1 = .panicked ∧
      (RsaMethod.set_name true 0 nulName s1).1 ≠ .err :=
  ⟨by decide, by decide, by decide, by decide⟩

/-- C2 (amended): for every name containing an embedded NUL terminator
character, `new(name, flags)` and `set_name(name)` fail before attempting any
foreign call (the state is unchanged), but they do so by panicking on the
`CString::new(..).unwrap()`, not by returning a typed `Err`. -/
theorem C2_nul_name_panics (allocOk : Bool) (s : FState) (p : Nat)
    (nm : String) (fl : Int) (h : containsNul nm = true) :
    RsaMethod.new allocOk nm fl s = (.panicked, s) ∧
      RsaMethod.set_name allocOk p nm s = (.panicked, s) :=
  ⟨new_nul allocOk s nm fl h, set_name_nul allocOk s p nm h⟩

/-- C2 (witness): the amended statement evaluated at the concrete
NUL-containing name `nulName`. -/
theorem C2_witness :
    containsNul nulName = true ∧
      (RsaMethod.new true nulName 0 s1 = (.panicked, s1) ∧
        RsaMethod.set_name true 0 nulName s1 = (.panicked, s1)) :=
  ⟨by decide, C2_nul_name_panics true s1 0 nulName 0 (by decide)⟩

/-- C3 (counterexample): when the foreign allocator fails during duplication
of the live descriptor of `s1`, the public duplication operation
(`Clone::clone`, which calls `duplicate().unwrap()`) panics; the caller does
not receive a typed error result. -/
theorem C3_counterexample :
    RsaMethod.clone false 0 s1 = (.panicked, s1) ∧
      (RsaMethod.clone false 0 s1).1 ≠ .err :=
  ⟨by decide, by decide⟩

/-- C3 (amended): an allocation failure during duplication is surfaced as a
typed `Err` by the crate-private `duplicate` method, but the public
duplication operation `Clone::clone` unwraps that result and panics instead
of returning it. -/
theorem C3_duplicate_err_clone_panics (s : FState) (p : Nat) :
    RsaMethod.duplicate false p s = (.err, s) ∧
      RsaMethod.clone false p s = (.panicked, s) :=
  ⟨duplicate_allocFail s p, clone_allocFail s p⟩

/-- C4 (counterexample): the public interface includes the safe pair
`as_ptr`/`from_ptr`; the trace `new; from_ptr(as_ptr); drop; drop` creates
two owning handles over one foreign structure (live pointers not pairwise
distinct after the second step) and frees the same address twice. -/
theorem C4_counterexample :
    (runOps doubleFreeTrace).fs.frees = [0, 0] ∧
      (runOps doubleFreeTrace).fs.frees.count 0 = 2 ∧
      ¬ (livePtrs (runOps twoOwnersTrace)).Nodup :=
  ⟨by decide, by decide, by decide⟩

/-- C4 (amended): along every trace of public-interface operations that does
not use `from_ptr`, the ownership invariant holds: live handles hold pairwise
distinct pointers (exactly one owning handle per structure), every live
handle points at a live allocation (no access after free), no address is
freed twice, and freed addresses are no longer allocated. -/
theorem C4_ownership_without_from_ptr (ops : List Op)
    (h : ∀ op ∈ ops, op.isFromPtr = false) : SysInv (runOps ops) :=
  foldl_stepOp_inv ops initSys h initSys_inv

/-- C4 (witness): the amended invariant evaluated on the concrete
`from_ptr`-free trace `new; clone; drop; drop`. -/
theorem C4_witness :
    (∀ op ∈ [Op.opNew "TEST" 1, Op.opClone 0, Op.opDrop 0, Op.opDrop 1],
      op.isFromPtr = false) ∧
      SysInv (runOps [Op.opNew "TEST" 1, Op.opClone 0, Op.opDrop 0, Op.opDrop 1]) :=
  ⟨by decide,
    C4_ownership_without_from_ptr
      [Op.opNew "TEST" 1, Op.opClone 0, Op.opDrop 0, Op.opDrop 1] (by decide)⟩

/-- C5 (confirmed): for every name without an embedded NUL (representable as
a terminated string), `set_name(x)` on a live descriptor succeeds and a
subsequent `get_name()` returns `Ok(x)`; likewise `new(name, flags)` succeeds
and `get_name()` on the fresh descriptor returns exactly the supplied name. -/
theorem C5_name_roundtrip (s : FState) (p : Nat) (m : RSA_METHOD)
    (nm : String) (hnul : containsNul nm = false) (h : s.read p = some m) :
    (RsaMethod.set_name true p nm s).1 = .ok () ∧
      RsaMethod.get_name p (RsaMethod.set_name true p nm s).2 = .ok nm ∧
      ∀ (s' : FState) (fl : Int),
        (RsaMethod.new true nm fl s').1 = .ok s'.next ∧
          RsaMethod.get_name s'.next (RsaMethod.new true nm fl s').2 = .ok nm := by
  rw [set_name_live s p m nm hnul h]
  refine ⟨rfl, ?_, ?_⟩
  · exact get_name_utf8_eq _ p _ nm (read_write_self s p m _ h) rfl
  · intro s' fl
    rw [new_ok s' nm fl hnul]
    exact ⟨rfl, get_name_utf8_eq _ s'.next (freshMeth nm fl) nm
      (by simp [FState.read, memRead]) rfl⟩

/-- C5 (witness): the name round-trip law evaluated at the live descriptor
`m0` and the name `"UPDATED"`. -/
theorem C5_witness :
    containsNul "UPDATED" = false ∧ s1.read 0 = some m0 ∧
      ((RsaMethod.set_name true 0 "UPDATED" s1).1 = .ok () ∧
        RsaMethod.get_name 0 (RsaMethod.set_name true 0 "UPDATED" s1).2 =
          .ok "UPDATED" ∧
        ∀ (s' : FState) (fl : Int),
          (RsaMethod.new true "UPDATED" fl s').1 = .ok s'.next ∧
            RsaMethod.get_name s'.next (RsaMethod.new true "UPDATED" fl s').2 =
              .ok "UPDATED") :=
  ⟨by decide, by decide, C5_name_roundtrip s1 0 m0 "UPDATED" (by decide) (by decide)⟩

/-- C6 (confirmed): duplicating a live descriptor succeeds and yields an
independently-allocated deep copy: immediately after duplication the
duplicate's stored structure equals the original's, so querying name, flags
and app_data on the duplicate gives the same answers as on the original; and
every subsequent mutation (set_name, set_flags, set_app_data, or any slot
setter) of either copy leaves the other copy's stored structure unchanged. -/
theorem C6_duplicate_independence (s : FState) (p : Nat) (m : RSA_METHOD)
    (h : s.read p = some m) (hb : ∀ e ∈ s.mem, e.1 < s.next) :
    (RsaMethod.duplicate true p s).1 = .ok s.next ∧
      (RsaMethod.duplicate true p s).2.read s.next = some m ∧
      (RsaMethod.duplicate true p s).2.read p = some m ∧
      (RsaMethod.get_name s.next (RsaMethod.duplicate true p s).2 =
          RsaMethod.get_name p (RsaMethod.duplicate true p s).2 ∧
        RsaMethod.get_flags s.next (RsaMethod.duplicate true p s).2 =
          RsaMethod.get_flags p (RsaMethod.duplicate true p s).2 ∧
        RsaMethod.get_app_data s.next (RsaMethod.duplicate true p s).2 =
          RsaMethod.get_app_data p (RsaMethod.duplicate true p s).2) ∧
      (∀ mu : Mut,
        (applyMut mu p (RsaMethod.duplicate true p s).2).read s.next = some m) ∧
      (∀ mu : Mut,
        (applyMut mu s.next (RsaMethod.duplicate true p s).2).read p = some m) := by
  have hpk : p ∈ s.mem.map Prod.fst := mem_keys_of_memRead s.mem p m h
  have hplt : p < s.next := by
    rcases List.mem_map.1 hpk with ⟨e, he, hfst⟩
    exact hfst ▸ hb e he
  have hpn : p ≠ s.next := Nat.ne_of_lt hplt
  rw [duplicate_live s p m h]
  have hrn : (⟨(s.next, m) :: s.mem, s.next + 1, s.frees⟩ : FState).read s.next =
      some m := by
    simp [FState.read, memRead]
  have hrp : (⟨(s.next, m) :: s.mem, s.next + 1, s.frees⟩ : FState).read p =
      some m := by
    simp only [FState.read, memRead, if_neg (fun hc : s.next = p => hpn hc.symm)]
    exact h
  refine ⟨rfl, hrn, hrp, ?_, ?_, ?_⟩
  · exact ⟨get_name_congr _ s.next p m hrn hrp,
      get_flags_congr _ s.next p m hrn hrp,
      get_app_data_congr _ s.next p m hrn hrp⟩
  · intro mu
    rw [applyMut_read_ne mu p s.next _ (fun hc => hpn hc.symm)]
    exact hrn
  · intro mu
    rw [applyMut_read_ne mu s.next p _ hpn]
    exact hrp

/-- C6 (witness): duplication independence evaluated at the live descriptor
`m0` of `s1`. -/
theorem C6_witness :
    s1.read 0 = some m0 ∧ (∀ e ∈ s1.mem, e.1 < s1.next) ∧
      ((RsaMethod.duplicate true 0 s1).1 = .ok s1.next ∧
        (RsaMethod.duplicate true 0 s1).2.read s1.next = some m0 ∧
        (RsaMethod.duplicate true 0 s1).2.read 0 = some m0 ∧
        (RsaMethod.get_name s1.next (RsaMethod.duplicate true 0 s1).2 =
            RsaMethod.get_name 0 (RsaMethod.duplicate true 0 s1).2 ∧
          RsaMethod.get_flags s1.next (RsaMethod.duplicate true 0 s1).2 =
            RsaMethod.get_flags 0 (RsaMethod.duplicate true 0 s1).2 ∧
          RsaMethod.get_app_data s1.next (RsaMethod.duplicate true 0 s1).2 =
            RsaMethod.get_app_data 0 (RsaMethod.duplicate true 0 s1).2) ∧
        (∀ mu : Mut,
          (applyMut mu 0 (RsaMethod.duplicate true 0 s1).2).read s1.next =
            some m0) ∧
        (∀ mu : Mut,
          (applyMut mu s1.next (RsaMethod.duplicate true 0 s1).2).read 0 =
            some m0)) :=
  ⟨by decide, by decide, C6_duplicate_independence s1 0 m0 (by decide) (by decide)⟩

/-- C7 (confirmed): registering any one of the twelve callback slots on a
live descriptor succeeds; the registered slot is atomically replaced with the
new function pointer (last writer wins), every other slot and the scalar
properties (name, flags, app_data) are unchanged, and every other
descriptor's state is untouched. -/
theorem C7_slot_isolation (s : FState) (p : Nat) (m : RSA_METHOD)
    (sl : Slot) (f : Nat) (h : s.read p = some m) :
    (setSlot sl p f s).1 = .ok () ∧
      (setSlot sl p f s).2.read p = some (m.withSlot sl f) ∧
      (m.withSlot sl f).getSlot sl = some f ∧
      (∀ sl', sl' ≠ sl → (m.withSlot sl f).getSlot sl' = m.getSlot sl') ∧
      (m.withSlot sl f).name = m.name ∧
      (m.withSlot sl f).flags = m.flags ∧
      (m.withSlot sl f).app_data = m.app_data ∧
      ∀ q, q ≠ p → (setSlot sl p f s).2.read q = s.read q := by
  rw [setSlot_live s p m sl f h]
  obtain ⟨h1, h2, h3⟩ := withSlot_scalars m sl f
  exact ⟨rfl, read_write_self s p m _ h, getSlot_withSlot_self m sl f,
    fun sl' hne => getSlot_withSlot_ne m sl sl' f hne,
    h1, h2, h3, fun q hq => read_write_ne s p q _ hq⟩

/-- C7 (witness): slot isolation evaluated on the live descriptor `m0` for
the `pub_enc` slot and function pointer `42`. -/
theorem C7_witness :
    s1.read 0 = some m0 ∧
      ((setSlot .pub_enc 0 42 s1).1 = .ok () ∧
        (setSlot .pub_enc 0 42 s1).2.read 0 = some (m0.withSlot .pub_enc 42) ∧
        (m0.withSlot .pub_enc 42).getSlot .pub_enc = some 42 ∧
        (∀ sl', sl' ≠ Slot.pub_enc →
          (m0.withSlot .pub_enc 42).getSlot sl' = m0.getSlot sl') ∧
        (m0.withSlot .pub_enc 42).name = m0.name ∧
        (m0.withSlot .pub_enc 42).flags = m0.flags ∧
        (m0.withSlot .pub_enc 42).app_data = m0.app_data ∧
        ∀ q, q ≠ 0 → (setSlot .pub_enc 0 42 s1).2.read q = s1.read q) :=
  ⟨by decide, C7_slot_isolation s1 0 m0 .pub_enc 42 (by decide)⟩

/-- C8 (confirmed): on a live descriptor, `set_app_data(p)` succeeds for any
pointer value (including null = `0` and arbitrary sentinels) and the
subsequent `get_app_data()` returns exactly that value; moreover
`get_app_data` never fails structurally — on any state and any handle it
returns `Ok`. -/
theorem C8_app_data_roundtrip (s : FState) (p : Nat) (m : RSA_METHOD)
    (d : Nat) (h : s.read p = some m) :
    (RsaMethod.set_app_data p d s).1 = .ok () ∧
      RsaMethod.get_app_data p (RsaMethod.set_app_data p d s).2 = .ok d ∧
      ∀ (s' : FState) (q : Nat), ∃ v, RsaMethod.get_app_data q s' = .ok v := by
  rw [set_app_data_live s p m d h]
  refine ⟨rfl, ?_, fun s' q => ⟨_, rfl⟩⟩
  rw [get_app_data_eq _ p _ (read_write_self s p m _ h)]

/-- C8 (witness): the app_data identity law evaluated at the live descriptor
`m0` and the null pointer value `0`. -/
theorem C8_witness :
    s1.read 0 = some m0 ∧
      ((RsaMethod.set_app_data 0 0 s1).1 = .ok () ∧
        RsaMethod.get_app_data 0 (RsaMethod.set_app_data 0 0 s1).2 = .ok 0 ∧
        ∀ (s' : FState) (q : Nat), ∃ v, RsaMethod.get_app_data q s' = .ok v) :=
  ⟨by decide, C8_app_data_roundtrip s1 0 m0 0 (by decide)⟩

/-- C9 (confirmed): `get_flags` routes the stored flags value through the
generic sign-based failure check: on a live descriptor it returns `Err`
exactly when the stored flags value is `≤ 0`, and `Ok` of the stored value
exactly when it is positive. -/
theorem C9_get_flags_sign_check (s : FState) (p : Nat) (m : RSA_METHOD)
    (h : s.read p = some m) :
    (RsaMethod.get_flags p s = .err ↔ m.flags ≤ 0) ∧
      (0 < m.flags → RsaMethod.get_flags p s = .ok m.flags) := by
  rw [get_flags_live s p m h]
  constructor
  · constructor
    · intro he
      by_contra hx
      rw [show cvt m.flags = .ok m.flags by rw [cvt, if_neg hx]] at he
      exact Outcome.noConfusion he
    · intro hx
      rw [cvt, if_pos hx]
  · intro hx
    rw [cvt, if_neg (not_le.mpr hx)]

/-- C9 (witness): the sign-check law evaluated at the live descriptor `m0`,
whose stored flags value is `7 > 0`. -/
theorem C9_witness :
    s1.read 0 = some m0 ∧
      ((RsaMethod.get_flags 0 s1 = .err ↔ m0.flags ≤ 0) ∧
        (0 < m0.flags → RsaMethod.get_flags 0 s1 = .ok m0.flags)) :=
  ⟨by decide, C9_get_flags_sign_check s1 0 m0 (by decide)⟩

/-- C10 (confirmed): `get_name` performs an unchecked UTF-8 conversion of the
foreign name: when the stored name bytes are valid UTF-8 (as they are for
every name installed through `new` or `set_name`, which take Rust strings),
it returns `Ok` of that name; when the stored bytes are not valid UTF-8 the
`to_str().unwrap()` panics instead of returning `Err`. -/
theorem C10_get_name_unchecked_utf8 (s : FState) (p : Nat) (m : RSA_METHOD)
    (h : s.read p = some m) :
    (∀ str, m.name = .utf8 str → RsaMethod.get_name p s = .ok str) ∧
      (m.name = .invalid → RsaMethod.get_name p s = .panicked) :=
  ⟨fun str hn => get_name_utf8_eq s p m str h hn,
    fun hn => get_name_invalid_eq s p m h hn⟩

/-- C10 (witness): the unchecked-conversion behavior evaluated at the
descriptor `mBad` of `s2`, whose foreign name bytes are not valid UTF-8:
`get_name` panics. -/
theorem C10_witness :
    s2.read 0 = some mBad ∧
      ((∀ str, mBad.name = .utf8 str → RsaMethod.get_name 0 s2 = .ok str) ∧
        (mBad.name = .invalid → RsaMethod.get_name 0 s2 = .panicked)) :=
  ⟨by decide, C10_get_name_unchecked_utf8 s2 0 mBad (by decide)⟩
